import Mathlib

/-!
Verification of the quiz-serving backend (`src/main.go`).

The session store (`TestStore` with `Put`, `Get`, `CleanupExpired`) and the
grading loop of `submitHandler` are embedded shallowly:

* Go `time.Time` becomes `Nat` (absolute instants); `time.Time.After e`
  at instant `now` is the strict comparison `e < now`, and
  `now.Add(ttl)` is `now + ttl`.
* The two Go maps `testMap : map[string][]Question` and
  `expiresAt : map[string]time.Time` become functions into `Option`.
* `Get` in Go returns `(nil, false)` on a miss; we model the slice result
  as `Option (List Question)` with `none` for `nil`.  Since the Go method
  never writes to the receiver, its state-transformer embedding returns
  the input store unchanged, which lets frame properties be stated.
* Go `int` fields that the client controls (`choice`, `question_id`,
  `answer`, `id`) become `Int`.
-/

/-- Server-side question model (`Question` in `main.go`): id, prompt,
options and the index of the correct option. -/
structure Question where
  id : Int
  question : String
  options : List String
  answer : Int
deriving DecidableEq, Repr

/-- Client-facing question model (`PublicQuestion` in `main.go`): same as
`Question` but with no answer field at all. -/
structure PublicQuestion where
  id : Int
  question : String
  options : List String
deriving DecidableEq, Repr

/-- One submitted answer (`SubmitRequest.Answers` element in `main.go`). -/
structure Answer where
  questionID : Int
  choice : Int
deriving DecidableEq, Repr

/-- One graded review entry (`ReviewItem` in `main.go`). -/
structure ReviewItem where
  questionID : Int
  question : String
  options : List String
  correctChoice : Int
  userChoice : Int
deriving DecidableEq, Repr

/-- The session store (`TestStore` in `main.go`): the two maps plus the
configured ttl.  `ttl = 0` means expiration is disabled. -/
structure TestStore where
  testMap : String → Option (List Question)
  expiresAt : String → Option Nat
  ttl : Nat

/-- Embedding of `NewTestStore` in `main.go`: empty maps, given ttl. -/
def NewTestStore (ttl : Nat) : TestStore :=
  { testMap := fun _ => none, expiresAt := fun _ => none, ttl := ttl }

/-- Embedding of method `Put` of `TestStore` in `main.go`, with the call instant `now` made
explicit: stores the question list under `testID`, and when `ttl > 0`
records the absolute expiration `now + ttl`. -/
def TestStore.put (s : TestStore) (testID : String) (qs : List Question)
    (now : Nat) : TestStore :=
  { s with
    testMap := fun k => if k = testID then some qs else s.testMap k
    expiresAt :=
      if 0 < s.ttl then
        fun k => if k = testID then some (now + s.ttl) else s.expiresAt k
      else s.expiresAt }

/-- Embedding of method `Get` of `TestStore` in `main.go`, with the call instant `now` made
explicit.  Returns the Go pair (`nil`/slice as `Option`, found flag)
together with the store the method leaves behind; the method body contains
no write to either map, so the store component is the input store. -/
def TestStore.get (s : TestStore) (testID : String) (now : Nat) :
    (Option (List Question) × Bool) × TestStore :=
  match s.testMap testID with
  | none => ((none, false), s)
  | some qs =>
    if 0 < s.ttl then
      match s.expiresAt testID with
      | some exp => if exp < now then ((none, false), s) else ((some qs, true), s)
      | none => ((some qs, true), s)
    else ((some qs, true), s)

/-- Embedding of method `CleanupExpired` of `TestStore` in `main.go` (the sweep), with the call
instant `now` made explicit: returns unchanged when `ttl = 0`, otherwise
removes from both maps every id whose recorded expiration is strictly
before `now` (Go `now.After(exp)`). -/
def TestStore.cleanupExpired (s : TestStore) (now : Nat) : TestStore :=
  if s.ttl = 0 then s
  else
    { s with
      testMap := fun k =>
        match s.expiresAt k with
        | some exp => if exp < now then none else s.testMap k
        | none => s.testMap k
      expiresAt := fun k =>
        match s.expiresAt k with
        | some exp => if exp < now then none else s.expiresAt k
        | none => s.expiresAt k }

/-- The public projection applied per question in `startHandler`
(`main.go`): keeps id, prompt and options, drops the answer. -/
def toPublic (q : Question) : PublicQuestion :=
  { id := q.id, question := q.question, options := q.options }

/-- The `pub` array built by `startHandler` in `main.go`: the public view
of the whole question bank. -/
def publicView (qs : List Question) : List PublicQuestion :=
  qs.map toPublic

/-- The `qByID` index built by `submitHandler` in `main.go`: a Go map is
filled left to right, so a duplicated id keeps the last question; lookup
of `qid` is therefore the last element of `qs` whose id is `qid`. -/
def qLookup (qs : List Question) (qid : Int) : Option Question :=
  qs.foldl (fun acc q => if q.id = qid then some q else acc) none

/-- One iteration of the grading loop in `submitHandler` (`main.go`):
unknown question id leaves the accumulator unchanged; otherwise the score
is incremented exactly when the choice equals the stored answer, and a
review item is appended. -/
def gradeStep (qs : List Question) (acc : Nat × List ReviewItem)
    (a : Answer) : Nat × List ReviewItem :=
  match qLookup qs a.questionID with
  | none => acc
  | some q =>
    ((if a.choice = q.answer then acc.1 + 1 else acc.1),
     acc.2 ++ [{ questionID := q.id, question := q.question,
                 options := q.options, correctChoice := q.answer,
                 userChoice := a.choice }])

/-- The grading loop of `submitHandler` in `main.go`: folds `gradeStep`
over the submitted answers starting from score 0 and empty review. -/
def gradeSubmission (qs : List Question) (answers : List Answer) :
    Nat × List ReviewItem :=
  answers.foldl (gradeStep qs) (0, [])

/-- Whether a submitted answer is counted by the grading loop: its
question id resolves in the stored set and the choice equals the stored
correct index. -/
def isHit (qs : List Question) (a : Answer) : Bool :=
  match qLookup qs a.questionID with
  | none => false
  | some q => a.choice = q.answer

/-- Lock modes of the Go RWMutex. -/
inductive LockMode where
  | shared
  | exclusive
deriving DecidableEq

/-- The three store operations of `main.go`. -/
inductive StoreOp where
  | opGet
  | opPut
  | opSweep
deriving DecidableEq

/-- The lock each method of `TestStore` acquires in `main.go`:
`Get` calls `s.mu.RLock()`, `Put` and `CleanupExpired` call
`s.mu.Lock()`. -/
def lockOf : StoreOp → LockMode
  | .opGet => .shared
  | .opPut => .exclusive
  | .opSweep => .exclusive

/-- Compatibility of `sync.RWMutex` lock modes: two read locks may be
held at once; a write lock excludes everything. -/
def LockMode.compatible : LockMode → LockMode → Bool
  | .shared, .shared => true
  | _, _ => false

/-- Two store operations may run concurrently exactly when the locks they
acquire are compatible. -/
def mayRunConcurrently (o₁ o₂ : StoreOp) : Bool :=
  (lockOf o₁).compatible (lockOf o₂)

/-- A tiny concrete question used for witnesses. -/
def q1ex : Question :=
  { id := 1, question := "q", options := ["a", "b"], answer := 0 }

/-! ## Theorems -/

/-- C5: `Put` inserts or overwrites the record for the id, and a `Get`
performed immediately after (at the same instant, hence before any
expiration) returns found = true with exactly the stored question set,
for every prior store state. -/
theorem C5_put_then_get (s : TestStore) (id : String) (qs : List Question)
    (T : Nat) :
    ((s.put id qs T).get id T).1 = (some qs, true) ∧
    (s.put id qs T).testMap id = some qs := by
  constructor
  · unfold TestStore.put TestStore.get
    by_cases h : 0 < s.ttl
    · simp [h, Nat.not_lt.mpr (Nat.le_add_right T s.ttl)]
    · simp [h]
  · simp [TestStore.put]

/-- C8: when the configured ttl is zero, the sweep is a no-op: the store
is returned unchanged, whatever the current time and contents. -/
theorem C8_sweep_noop_when_ttl_zero (s : TestStore) (now : Nat)
    (h : s.ttl = 0) : s.cleanupExpired now = s := by
  simp [TestStore.cleanupExpired, h]

/-- Witness for C8 at a concrete store and time. -/
theorem C8_sweep_noop_when_ttl_zero_witness :
    (NewTestStore 0).cleanupExpired 1000 = NewTestStore 0 :=
  C8_sweep_noop_when_ttl_zero (NewTestStore 0) 1000 rfl

/-- A second concrete store for witnesses: two records with expirations
5 (id "a") and 25 (id "b"), ttl 5. -/
def storeEx : TestStore :=
  ((NewTestStore 5).put "a" [q1ex] 0).put "b" [q1ex] 20

/-- A concrete store with one record whose expiration is 5, ttl 5. -/
def storeEx2 : TestStore := (NewTestStore 5).put "a" [q1ex] 0

/-- C2 (amended): for ttl > 0, a record inserted at time T is found by
`Get` at every query time up to and including T + ttl, and not found at
every query time strictly greater than T + ttl; the code compares with
strict `After`, so at exactly T + ttl the record is still found. -/
theorem C2_expiry_boundary (s : TestStore) (id : String)
    (qs : List Question) (T t : Nat) (h : 0 < s.ttl) :
    ((s.put id qs T).get id t).1 =
      if T + s.ttl < t then (none, false) else (some qs, true) := by
  unfold TestStore.put TestStore.get
  simp [h]
  split <;> rfl

/-- C2 counterexample: with ttl = 5 and insertion at time 0, the query
time 5 satisfies 5 ≥ T + ttl, yet `Get` still reports found = true,
contradicting the claim that found = false at every time ≥ T + ttl. -/
theorem C2_counterexample :
    0 < (NewTestStore 5).ttl ∧ (0 : Nat) + (NewTestStore 5).ttl ≤ 5 ∧
    ((((NewTestStore 5).put "t1" [q1ex] 0).get "t1" 5).1.2 = true) :=
  ⟨by decide, by decide, by rfl⟩

/-- Witness for C2 at ttl = 5, insertion time 0, query time 7 > 0 + 5. -/
theorem C2_expiry_boundary_witness :
    0 < (NewTestStore 5).ttl ∧
    ((((NewTestStore 5).put "t1" [q1ex] 0).get "t1" 7).1 = (none, false)) := by
  refine ⟨by decide, ?_⟩
  have h := C2_expiry_boundary (NewTestStore 5) "t1" [q1ex] 0 7 (by decide)
  simpa [NewTestStore] using h

/-- C3 (amended): when ttl > 0, the sweep at time T deletes exactly the
records whose expiration is strictly before T; a record whose expiration
is < T disappears from both maps and is absent from every subsequent
`Get`, while a record whose expiration is ≥ T (including exactly T)
keeps its stored content and is still retrievable at time T. -/
theorem C3_sweep_strict_boundary (s : TestStore) (T : Nat) (id : String)
    (e : Nat) (h : 0 < s.ttl) (he : s.expiresAt id = some e) :
    (e < T → (s.cleanupExpired T).testMap id = none ∧
             (s.cleanupExpired T).expiresAt id = none ∧
             ∀ t, ((s.cleanupExpired T).get id t).1 = (none, false)) ∧
    (T ≤ e → ∀ qs, s.testMap id = some qs →
      (s.cleanupExpired T).testMap id = some qs ∧
      (s.cleanupExpired T).expiresAt id = some e ∧
      ((s.cleanupExpired T).get id T).1 = (some qs, true)) := by
  have hne : s.ttl ≠ 0 := by omega
  constructor
  · intro hlt
    have hm : (s.cleanupExpired T).testMap id = none := by
      simp [TestStore.cleanupExpired, hne, he, hlt]
    have hx : (s.cleanupExpired T).expiresAt id = none := by
      simp [TestStore.cleanupExpired, hne, he, hlt]
    exact ⟨hm, hx, fun t => by simp [TestStore.get, hm]⟩
  · intro hle qs hqs
    have hnlt : ¬ e < T := by omega
    have hm : (s.cleanupExpired T).testMap id = some qs := by
      simp [TestStore.cleanupExpired, hne, he, hnlt, hqs]
    have hx : (s.cleanupExpired T).expiresAt id = some e := by
      simp [TestStore.cleanupExpired, hne, he, hnlt]
    have httl : (s.cleanupExpired T).ttl = s.ttl := by
      simp [TestStore.cleanupExpired, hne]
    refine ⟨hm, hx, ?_⟩
    simp [TestStore.get, hm, hx, httl, h, hnlt]

/-- C3 counterexample: a record whose expiration equals the sweep time
(expiration 5, sweep at 5) is claimed absent afterwards, but it survives
the sweep and is still returned by `Get`. -/
theorem C3_counterexample :
    0 < storeEx2.ttl ∧ storeEx2.expiresAt "a" = some 5 ∧
    ((storeEx2.cleanupExpired 5).get "a" 5).1 = (some [q1ex], true) :=
  ⟨by decide, by rfl, by rfl⟩

/-- Witness for C3: sweeping `storeEx` at time 10 removes the record with
expiration 5 and keeps the record with expiration 25 intact. -/
theorem C3_sweep_strict_boundary_witness :
    (storeEx.cleanupExpired 10).testMap "a" = none ∧
    (storeEx.cleanupExpired 10).testMap "b" = some [q1ex] := by
  have h1 := C3_sweep_strict_boundary storeEx 10 "a" 5 (by decide) (by rfl)
  have h2 := C3_sweep_strict_boundary storeEx 10 "b" 25 (by decide) (by rfl)
  exact ⟨(h1.1 (by decide)).1, (h2.2 (by decide) [q1ex] (by rfl)).1⟩

/-- C7: `Get` on a record that exists but has expired behaves exactly like
a not-found miss — it returns (none, false) — and performs no mutation:
the store it leaves behind is the input store, with the record and its
expiration entry still present in the maps. -/
theorem C7_expired_get_is_readonly_miss (s : TestStore) (id : String)
    (qs : List Question) (e t : Nat) (h : 0 < s.ttl)
    (hm : s.testMap id = some qs) (he : s.expiresAt id = some e)
    (ht : e < t) :
    s.get id t = ((none, false), s) ∧
    (s.get id t).2.testMap id = some qs ∧
    (s.get id t).2.expiresAt id = some e := by
  have hg : s.get id t = ((none, false), s) := by
    simp [TestStore.get, hm, h, he, ht]
  refine ⟨hg, ?_, ?_⟩ <;> rw [hg]
  · exact hm
  · exact he

/-- Witness for C7: in `storeEx2` the record "a" expires at 5; `Get` at
time 6 misses but both map entries survive. -/
theorem C7_expired_get_is_readonly_miss_witness :
    (storeEx2.get "a" 6).1 = (none, false) ∧
    (storeEx2.get "a" 6).2.testMap "a" = some [q1ex] := by
  have h := C7_expired_get_is_readonly_miss storeEx2 "a" [q1ex] 5 6
    (by decide) (by rfl) (by rfl) (by decide)
  exact ⟨by rw [h.1], h.2.1⟩

/-- A variant of `q1ex` that differs only in the correct-answer index. -/
def q1exAlt : Question :=
  { id := 1, question := "q", options := ["a", "b"], answer := 1 }

/-- C4: the public view sent by `/start` contains only id, question and
options, so two question banks that agree on those fields (differing only
in their correct-answer indices) yield the same public payload. -/
theorem C4_public_view_hides_answers (qs₁ qs₂ : List Question)
    (h : List.Forall₂ (fun a b => a.id = b.id ∧ a.question = b.question ∧
      a.options = b.options) qs₁ qs₂) :
    publicView qs₁ = publicView qs₂ := by
  induction h with
  | nil => rfl
  | cons hab _ ih =>
    obtain ⟨h1, h2, h3⟩ := hab
    show toPublic _ :: publicView _ = toPublic _ :: publicView _
    rw [ih]
    congr 1
    simp [toPublic, h1, h2, h3]

/-- Witness for C4: two one-question banks differing only in the answer
index produce identical public views. -/
theorem C4_public_view_hides_answers_witness :
    [q1ex] ≠ [q1exAlt] ∧ publicView [q1ex] = publicView [q1exAlt] :=
  ⟨by decide,
   C4_public_view_hides_answers [q1ex] [q1exAlt]
     (List.Forall₂.cons ⟨rfl, rfl, rfl⟩ List.Forall₂.nil)⟩

/-- C6: a submitted answer whose question id does not resolve in the
stored set is silently skipped: removing it from the submission changes
neither the score nor the review, wherever it occurs. -/
theorem C6_unknown_id_skipped (qs : List Question) (pre post : List Answer)
    (a : Answer) (h : qLookup qs a.questionID = none) :
    gradeSubmission qs (pre ++ a :: post) = gradeSubmission qs (pre ++ post) := by
  simp [gradeSubmission, List.foldl_append, List.foldl_cons, gradeStep, h]

/-- Witness for C6: submitting an answer for the unknown id 999 leaves
the grading of the remaining answers untouched. -/
theorem C6_unknown_id_skipped_witness :
    gradeSubmission [q1ex] [⟨1, 0⟩, ⟨999, 0⟩] = gradeSubmission [q1ex] [⟨1, 0⟩] ∧
    (gradeSubmission [q1ex] [⟨1, 0⟩, ⟨999, 0⟩]).1 = 1 :=
  ⟨C6_unknown_id_skipped [q1ex] [⟨1, 0⟩] [] ⟨999, 0⟩ (by rfl), by rfl⟩

/-- C9: grading is total over arbitrary submitted choice values: for any
integer choice (negative or out of range included) on a known question
id, the loop appends exactly one review item carrying the raw choice as
`user_choice`, and increments the score precisely when the choice equals
the stored correct index. -/
theorem C9_grading_total_over_choices (qs : List Question) (l : List Answer)
    (a : Answer) (q : Question) (h : qLookup qs a.questionID = some q) :
    gradeSubmission qs (l ++ [a]) =
      ((if a.choice = q.answer then (gradeSubmission qs l).1 + 1
        else (gradeSubmission qs l).1),
       (gradeSubmission qs l).2 ++
         [{ questionID := q.id, question := q.question, options := q.options,
            correctChoice := q.answer, userChoice := a.choice }]) := by
  simp [gradeSubmission, List.foldl_append, gradeStep, h]

/-- Witness for C9 at the out-of-range choice -3. -/
theorem C9_grading_total_over_choices_witness :
    gradeSubmission [q1ex] [⟨1, -3⟩] =
      (0, [{ questionID := 1, question := "q", options := ["a", "b"],
             correctChoice := 0, userChoice := -3 }]) := by
  have h := C9_grading_total_over_choices [q1ex] [] ⟨1, -3⟩ q1ex (by rfl)
  simpa [gradeSubmission, q1ex] using h

/-- One grading step adds to the incoming score exactly what it would add
starting from score 0. -/
lemma gradeStep_score (qs : List Question) (acc : Nat × List ReviewItem)
    (a : Answer) :
    (gradeStep qs acc a).1 =
      acc.1 + (gradeStep qs (0, ([] : List ReviewItem)) a).1 := by
  unfold gradeStep
  cases hq : qLookup qs a.questionID with
  | none => simp
  | some q =>
    by_cases hc : a.choice = q.answer
    · simp [hc]
    · simp [hc]

/-- The score component of the grading fold is independent of the review
accumulator and additive in the initial score. -/
lemma gradeScore_shift (qs : List Question) :
    ∀ (l : List Answer) (acc : Nat × List ReviewItem),
      (l.foldl (gradeStep qs) acc).1 =
        acc.1 + (l.foldl (gradeStep qs) (0, ([] : List ReviewItem))).1 := by
  intro l
  induction l with
  | nil => intro acc; simp
  | cons a l ih =>
    intro acc
    simp only [List.foldl_cons]
    rw [ih (gradeStep qs acc a), ih (gradeStep qs (0, []) a)]
    rw [gradeStep_score qs acc a]
    omega

/-- The score computed by the grading loop is the number of submitted
answers that are counted (`isHit`). -/
lemma score_eq_filter_length (qs : List Question) (l : List Answer) :
    (gradeSubmission qs l).1 = (l.filter (isHit qs)).length := by
  induction l with
  | nil => rfl
  | cons a l ih =>
    simp only [gradeSubmission, List.foldl_cons] at ih ⊢
    have hstep := gradeScore_shift qs l (gradeStep qs (0, []) a)
    cases hq : qLookup qs a.questionID with
    | none =>
      have hhit : isHit qs a = false := by simp [isHit, hq]
      simp only [gradeStep, hq, List.filter_cons, hhit]
      simpa using ih
    | some q =>
      by_cases hc : a.choice = q.answer
      · have hhit : isHit qs a = true := by simp [isHit, hq, hc]
        have h1 : (gradeStep qs (0, ([] : List ReviewItem)) a).1 = 1 := by
          simp [gradeStep, hq, hc]
        rw [hstep, h1, ih]
        simp [List.filter_cons, hhit, Nat.add_comm]
      · have hhit : isHit qs a = false := by simp [isHit, hq, hc]
        have h0 : (gradeStep qs (0, ([] : List ReviewItem)) a).1 = 0 := by
          simp [gradeStep, hq, hc]
        rw [hstep, h0, ih]
        simp [List.filter_cons, hhit]

/-- If the `qByID` lookup yields a question, that question is an element
of the stored set and carries the looked-up id. -/
lemma qLookup_some_mem (qs : List Question) (qid : Int) :
    ∀ (acc : Option Question) (q : Question),
      qs.foldl (fun acc q => if q.id = qid then some q else acc) acc = some q →
      acc = some q ∨ (q ∈ qs ∧ q.id = qid) := by
  induction qs with
  | nil => intro acc q h; exact Or.inl h
  | cons p qs ih =>
    intro acc q h
    simp only [List.foldl_cons] at h
    rcases ih _ q h with hacc | ⟨hmem, hid⟩
    · by_cases hp : p.id = qid
      · rw [if_pos hp] at hacc
        cases hacc
        exact Or.inr ⟨List.mem_cons_self _ _, hp⟩
      · rw [if_neg hp] at hacc
        exact Or.inl hacc
    · exact Or.inr ⟨List.mem_cons_of_mem _ hmem, hid⟩

/-- The question id of a counted answer occurs among the ids of the stored
question set. -/
lemma isHit_mem_ids (qs : List Question) (a : Answer)
    (h : isHit qs a = true) : a.questionID ∈ qs.map Question.id := by
  unfold isHit at h
  cases hq : qLookup qs a.questionID with
  | none => rw [hq] at h; simp at h
  | some q =>
    rcases qLookup_some_mem qs a.questionID none q hq with hacc | ⟨hmem, hid⟩
    · cases hacc
    · exact List.mem_map.mpr ⟨q, hmem, hid⟩

/-- C1 counterexample: with one stored question and the same correct
answer submitted twice, the score is 2 while the total is 1, so
"score ≤ total always" fails as stated. -/
theorem C1_counterexample :
    ¬ ((gradeSubmission [q1ex] [⟨1, 0⟩, ⟨1, 0⟩]).1 ≤ ([q1ex] : List Question).length) := by
  decide

/-- C1 (amended): if the submitted answers carry pairwise-distinct
question ids, the score is at most the total (the size of the full stored
set); and in general the score counts exactly the answers whose choice
equals the stored correct index of a stored question. -/
theorem C1_score_le_total (qs : List Question) (answers : List Answer)
    (h : answers.Pairwise (fun a b => a.questionID ≠ b.questionID)) :
    (gradeSubmission qs answers).1 = (answers.filter (isHit qs)).length ∧
    (gradeSubmission qs answers).1 ≤ qs.length := by
  refine ⟨score_eq_filter_length qs answers, ?_⟩
  rw [score_eq_filter_length qs answers]
  have hpf : (answers.filter (isHit qs)).Pairwise
      (fun a b => a.questionID ≠ b.questionID) :=
    h.sublist (List.filter_sublist answers)
  have hnd : ((answers.filter (isHit qs)).map Answer.questionID).Nodup :=
    List.pairwise_map.mpr hpf
  have hsub : ((answers.filter (isHit qs)).map Answer.questionID) ⊆
      qs.map Question.id := by
    intro x hx
    rcases List.mem_map.mp hx with ⟨a, ha, rfl⟩
    exact isHit_mem_ids qs a (List.of_mem_filter ha)
  have hle := (List.subperm_of_subset hnd hsub).length_le
  simpa using hle

/-- Witness for C1 at a distinct-id submission: one correct answer and
one wrong answer against a one-question set give score 1 ≤ total 1. -/
theorem C1_score_le_total_witness :
    (gradeSubmission [q1ex] [⟨1, 0⟩]).1 = 1 ∧
    (gradeSubmission [q1ex] [⟨1, 0⟩]).1 ≤ ([q1ex] : List Question).length := by
  have h := C1_score_le_total [q1ex] [⟨1, 0⟩] (by simp)
  exact ⟨by rw [h.1]; rfl, h.2⟩

/-- C10: the locking discipline of the store as written in the source:
`Get` acquires the shared lock, `Put` and the sweep acquire the exclusive
lock, hence two `Get`s may run concurrently while `Put` and the sweep are
mutually exclusive with every operation. -/
theorem C10_lock_discipline :
    lockOf .opGet = .shared ∧ lockOf .opPut = .exclusive ∧
    lockOf .opSweep = .exclusive ∧
    mayRunConcurrently .opGet .opGet = true ∧
    (∀ o, mayRunConcurrently .opPut o = false ∧
          mayRunConcurrently o .opPut = false ∧
          mayRunConcurrently .opSweep o = false ∧
          mayRunConcurrently o .opSweep = false) := by
  refine ⟨rfl, rfl, rfl, rfl, ?_⟩
  intro o
  cases o <;> simp [mayRunConcurrently, lockOf, LockMode.compatible]
